import Mathlib

/-!
Verification of the EMA MCP server core (`src/ema-api.js`) against its
natural-language specification.

The JavaScript source is shallowly embedded below:

* a remote record is an association list from field names to string values
  (a field that is absent models a missing JS property; the empty string is
  falsy in JS, which the truthiness helpers reproduce);
* every handler is a pure function from its (typed, optional) parameter bag,
  the wall-clock inputs (`now`, `currentYear`) and — through the
  `HandlerResult.run` interpreter — the fetched collection, to either a
  validation error, a fetch request with a pure continuation, or a direct
  result;
* JavaScript string operations (`toLowerCase`, `trim`, `includes`,
  `padStart(2, '0')`, `split(' ')`) are modelled on the character lists of
  Lean strings.

Parameter bags are typed: a field carries the primitive type the handler
reads from it, so the `typeof` arms of the source's validation conditions
are vacuously satisfied and are dropped from the embedding (they are noted
in comments at each validation function).
-/

/-- A remote record: an association list from JSON field names to string
values. `Record.get` models JS property access (`undefined` becomes
`none`). -/
abbrev Record := List (String × String)

/-- JS property access `m.field`: the first binding of the field name, if
any. -/
def Record.get (m : Record) (field : String) : Option String :=
  (m.find? (fun b => b.1 == field)).map (fun b => b.2)

/-- JS `String.prototype.toLowerCase()` modelled character-wise. -/
def lowerStr (s : String) : String :=
  ⟨s.data.map Char.toLower⟩

/-- Leading and trailing whitespace removal on a character list, the
character-level core of JS `String.prototype.trim()`. -/
def trimChars (l : List Char) : List Char :=
  ((l.dropWhile Char.isWhitespace).reverse.dropWhile Char.isWhitespace).reverse

/-- JS `String.prototype.trim()`. -/
def jsTrim (s : String) : String :=
  ⟨trimChars s.data⟩

/-- Containment of `needle` as a contiguous run inside `hay`, by scanning
every suffix. -/
def infixCheck (needle : List Char) : List Char → Bool
  | [] => needle.isEmpty
  | c :: rest => needle.isPrefixOf (c :: rest) || infixCheck needle rest

/-- JS `hay.includes(needle)` (substring containment). -/
def includesStr (hay needle : String) : Bool :=
  infixCheck needle.data hay.data

/-- The outcome of one result-producing handler call, before the fetched
collection is available: the source either throws a validation `Error`
before any network access, or issues exactly one HTTP GET and continues
purely with the fetched records, or (the stub datasets) finishes without
any network access at all. -/
inductive HandlerResult (α : Type) where
  | validationError (msg : String)
  | fetchThen (url : String) (k : List Record → α)
  | pure (a : α)

/-- Feed the collection a successful fetch would return to the handler
outcome: validation errors stay errors, everything else succeeds. -/
def HandlerResult.run {α : Type} : HandlerResult α → List Record → Except String α
  | .validationError msg, _ => .error msg
  | .fetchThen _ k, coll => .ok (k coll)
  | .pure a, _ => .ok a

/-- True exactly on the validation-error outcome. -/
def HandlerResult.isValidationError {α : Type} : HandlerResult α → Bool
  | .validationError _ => true
  | _ => false

/-- The uniform result envelope every list-returning handler builds. -/
structure Envelope where
  total_count : Nat
  results : List Record
  source : String
  source_url : String
  last_updated : String
deriving Repr, DecidableEq

/-- The tagged result of the single-medicine lookup. -/
inductive Lookup where
  | notFound (message : String) (source : String) (source_url : String)
  | found (medicine : Record) (source : String) (source_url : String)
      (last_updated : String)
deriving Repr, DecidableEq

/-- The medicine carried by a lookup result, when there is one. -/
def Lookup.medicine : Lookup → Option Record
  | .notFound _ _ _ => none
  | .found m _ _ _ => some m

/-- True exactly on the found variant. -/
def Lookup.isFound : Lookup → Bool
  | .notFound _ _ _ => false
  | .found _ _ _ _ => true

/-- Constant `EMA_BASE_URL` from the source. -/
def EMA_BASE_URL : String := "https://www.ema.europa.eu/en/documents/report"

/-- Function `generateEmaUrl` from the source. -/
def generateEmaUrl (endpoint : String) : String :=
  EMA_BASE_URL ++ "/" ++ endpoint

/-- The parsed JSON body of a successful EMA response: either a bare array
of records, or an object whose `data` property is an array of records
(`Body.obj (some items)`) or is missing or not an array (`Body.obj none`).
A string body that parses to one of these shapes is modelled as the parsed
value; a string body that fails `JSON.parse` throws inside the `try` block
and reaches the caller through the generic rethrow arm, i.e. through
`FetchOutcome.requestSetupError`. -/
inductive Body where
  | arr (items : List Record)
  | obj (dataField : Option (List Record))

/-- The outcome of the underlying axios GET, the collaborator boundary:
a parsed body, or one of the transport failures the `catch` block
discriminates (`error.code === 'ECONNABORTED'`, `error.response`,
`error.request`, anything else). -/
inductive FetchOutcome where
  | success (body : Body)
  | timeout
  | httpError (status : Nat) (statusText : String)
  | networkError
  | requestSetupError (msg : String)

/-- Message of the timeout arm of both fetchers. -/
def timeoutMsg : String := "EMA API request timeout (30s exceeded)"

/-- Message of the network-error arm of both fetchers. -/
def networkMsg : String := "EMA API network error: No response received"

/-- Message of the HTTP-error arm of both fetchers. -/
def httpErrorMsg (status : Nat) (statusText : String) : String :=
  "EMA API HTTP error " ++ toString status ++ ": " ++ statusText

/-- Message of the generic rethrow arm of both fetchers. -/
def requestFailedMsg (detail : String) : String :=
  "EMA API request failed: " ++ detail

/-- Function `makeEmaRequest` from the source. The `throw new Error('EMA API
returned non-array response')` sits inside the `try` block, so the `catch`
block re-wraps it: the thrown error has no `code`, `response` or `request`
property and falls to the final arm, which prefixes `EMA API request
failed: `. -/
def makeEmaRequest : FetchOutcome → Except String (List Record)
  | .success (.arr items) => .ok items
  | .success (.obj _) =>
      .error (requestFailedMsg "EMA API returned non-array response")
  | .timeout => .error timeoutMsg
  | .httpError status statusText => .error (httpErrorMsg status statusText)
  | .networkError => .error networkMsg
  | .requestSetupError msg => .error (requestFailedMsg msg)

/-- Function `makeEmaDocumentRequest` from the source. A bare array has no `data`
property, so it fails the `json.data && Array.isArray(json.data)` test
exactly like an object without a `data` array; the `throw` again happens
inside the `try` block and is re-wrapped by the final `catch` arm. -/
def makeEmaDocumentRequest : FetchOutcome → Except String (List Record)
  | .success (.obj (some items)) => .ok items
  | .success (.obj none) =>
      .error (requestFailedMsg "EMA API document response missing data array")
  | .success (.arr _) =>
      .error (requestFailedMsg "EMA API document response missing data array")
  | .timeout => .error timeoutMsg
  | .httpError status statusText => .error (httpErrorMsg status statusText)
  | .networkError => .error networkMsg
  | .requestSetupError msg => .error (requestFailedMsg msg)

/-- The fixed month table of `parseEmaDate` (case-sensitive full English
names). -/
def monthToNum : String → Option String
  | "January" => some "01"
  | "February" => some "02"
  | "March" => some "03"
  | "April" => some "04"
  | "May" => some "05"
  | "June" => some "06"
  | "July" => some "07"
  | "August" => some "08"
  | "September" => some "09"
  | "October" => some "10"
  | "November" => some "11"
  | "December" => some "12"
  | _ => none

/-- JS `String.prototype.split(sep)` on character lists: separators are
single characters, consecutive separators produce empty fields, and the
empty input yields one empty field. -/
def splitChars (sep : Char) : List Char → List (List Char)
  | [] => [[]]
  | c :: rest =>
    match splitChars sep rest with
    | [] => []
    | cur :: more => if c = sep then [] :: cur :: more else (c :: cur) :: more

/-- JS `s.split(' ')`. -/
def jsSplitSpace (s : String) : List String :=
  (splitChars ' ' s.data).map String.mk

/-- JS `s.padStart(2, '0')`. -/
def padStart2 (s : String) : String :=
  if s.length < 2 then ⟨List.replicate (2 - s.length) '0' ++ s.data⟩ else s

/-- Function `parseEmaDate` from the source. `none` stands for a missing (or
non-string falsy) argument; the empty string is falsy, so the `!emaDate`
guard returns `null` for both. The `try`/`catch` wrapper of the source
makes the function total, which the embedding is by construction. -/
def parseEmaDate : Option String → Option String
  | none => none
  | some d =>
    if d = "" then none
    else
      match jsSplitSpace (jsTrim d) with
      | [day, mon, year] =>
        match monthToNum mon with
        | some m => some (year ++ "-" ++ m ++ "-" ++ padStart2 day)
        | none => none
      | _ => none

/-- The shared `limit` validation condition
`params.limit && (typeof params.limit !== 'number' || params.limit < 1 ||
params.limit > 10000)`. The number `0` is falsy, so a supplied limit of `0`
never fails validation; the `typeof` arm is vacuous in the typed
embedding. -/
def limitInvalid : Option Int → Bool
  | none => false
  | some n => decide (n ≠ 0) && (decide (n < 1) || decide (n > 10000))

/-- JS `value || dflt` on an optional number: the default replaces a
missing or falsy (zero) value. Used for `params.limit || 100` and
`params.limit || 50`. -/
def jsOr (v : Option Int) (dflt : Int) : Int :=
  match v with
  | some n => if n = 0 then dflt else n
  | none => dflt

/-- Shared message of every `limit` validation error. -/
def limitMsg : String := "limit must be a number between 1 and 10000"

/-- JS truthiness of a record field followed by a lowered substring test:
`m.field && m.field.toLowerCase().includes(searchTerm)`. The search term is
passed already lowered, exactly as the source computes it once before the
`filter` callback. -/
def fieldContainsLower (m : Record) (field searchTerm : String) : Bool :=
  match m.get field with
  | some v => decide (v ≠ "") && includesStr (lowerStr v) searchTerm
  | none => false

/-- JS truthiness of a record field followed by a raw substring test (no
case normalization): `m.field && m.field.includes(sub)`; used by the year
filters. -/
def fieldContainsRaw (m : Record) (field sub : String) : Bool :=
  match m.get field with
  | some v => decide (v ≠ "") && includesStr v sub
  | none => false

/-- One step of the source's filter chain for an optional text parameter:
`if (params.x) { results = results.filter(pred(params.x)) }`. The empty
string is falsy, so an empty parameter skips the filter. -/
def applyOptTextFilter (p : Option String) (pred : String → Record → Bool)
    (l : List Record) : List Record :=
  match p with
  | some t => if t = "" then l else l.filter (pred t)
  | none => l

/-- One step of the source's filter chain for an optional numeric
parameter: `if (params.x) { ... }` with `0` falsy. -/
def applyOptNumFilter (p : Option Int) (pred : Int → Record → Bool)
    (l : List Record) : List Record :=
  match p with
  | some n => if n = 0 then l else l.filter (pred n)
  | none => l

/-- One step of the source's filter chain for a boolean flag compared with
`=== true`. -/
def applyFlagFilter (p : Option Bool) (pred : Record → Bool)
    (l : List Record) : List Record :=
  if p = some true then l.filter pred else l

/-- The predicate an optional text parameter contributes to the chain,
viewed as a single filter: a skipped filter is the constantly-true
predicate. -/
def optTextPred (p : Option String) (pred : String → Record → Bool) :
    Record → Bool :=
  match p with
  | some t => if t = "" then fun _ => true else pred t
  | none => fun _ => true

/-- The predicate an optional numeric parameter contributes to the
chain. -/
def optNumPred (p : Option Int) (pred : Int → Record → Bool) :
    Record → Bool :=
  match p with
  | some n => if n = 0 then fun _ => true else pred n
  | none => fun _ => true

/-- The predicate a boolean flag contributes to the chain. -/
def flagPred (p : Option Bool) (pred : Record → Bool) : Record → Bool :=
  if p = some true then pred else fun _ => true

/-- Sequential application of a list of filter predicates, front to
back. -/
def applyPreds (ps : List (Record → Bool)) (l : List Record) : List Record :=
  ps.foldl (fun acc p => acc.filter p) l

/-- The enum validation pattern
`params.x && !allowed.includes(params.x)`. -/
def enumInvalid (p : Option String) (allowed : List String) : Bool :=
  match p with
  | some t => decide (t ≠ "") && !(allowed.contains t)
  | none => false

/-- The `year` validation condition
`params.year && (typeof params.year !== 'number' || params.year < 1995 ||
params.year > new Date().getFullYear() + 1)`, with the wall-clock year
threaded as an explicit argument. `0` is falsy. -/
def yearInvalid (y : Option Int) (currentYear : Int) : Bool :=
  match y with
  | none => false
  | some n => decide (n ≠ 0) && (decide (n < 1995) || decide (n > currentYear + 1))

/-- The `year` validation error message. -/
def yearMsg (currentYear : Int) : String :=
  "year must be a number between 1995 and " ++ toString (currentYear + 1)

/-- Parameter bag of `searchMedicines`. -/
structure SearchMedicinesParams where
  active_substance : Option String := none
  therapeutic_area : Option String := none
  status : Option String := none
  orphan : Option Bool := none
  prime : Option Bool := none
  biosimilar : Option Bool := none
  conditional_approval : Option Bool := none
  limit : Option Int := none

/-- Endpoint URL of the medicines dataset (shared by `searchMedicines` and
`getMedicineByName`). -/
def smUrl : String :=
  generateEmaUrl "medicines-output-medicines_json-report_en.json"

/-- For `searchMedicines`: active-substance filter body. -/
def smActivePred (t : String) (m : Record) : Bool :=
  fieldContainsLower m "active_substance" (lowerStr t)

/-- For `searchMedicines`: therapeutic-area filter body (two alternative
fields). -/
def smTherapeuticPred (t : String) (m : Record) : Bool :=
  fieldContainsLower m "therapeutic_area_mesh" (lowerStr t) ||
  fieldContainsLower m "therapeutic_indication" (lowerStr t)

/-- For `searchMedicines`: exact status filter body
(`m.medicine_status === params.status`). -/
def smStatusPred (t : String) (m : Record) : Bool :=
  m.get "medicine_status" == some t

/-- For `searchMedicines`: `m.orphan_medicine === 'Yes'`. -/
def smOrphanPred (m : Record) : Bool :=
  m.get "orphan_medicine" == some "Yes"

/-- For `searchMedicines`: `m.prime_priority_medicine === 'Yes'`. -/
def smPrimePred (m : Record) : Bool :=
  m.get "prime_priority_medicine" == some "Yes"

/-- For `searchMedicines`: `m.biosimilar === 'Yes'`. -/
def smBiosimilarPred (m : Record) : Bool :=
  m.get "biosimilar" == some "Yes"

/-- For `searchMedicines`: `m.conditional_approval === 'Yes'`. -/
def smConditionalPred (m : Record) : Bool :=
  m.get "conditional_approval" == some "Yes"

/-- The filter section of `searchMedicines`, applied in the source's fixed
order. -/
def smApplyFilters (p : SearchMedicinesParams) (coll : List Record) :
    List Record :=
  let r1 := applyOptTextFilter p.active_substance smActivePred coll
  let r2 := applyOptTextFilter p.therapeutic_area smTherapeuticPred r1
  let r3 := applyOptTextFilter p.status smStatusPred r2
  let r4 := applyFlagFilter p.orphan smOrphanPred r3
  let r5 := applyFlagFilter p.prime smPrimePred r4
  let r6 := applyFlagFilter p.biosimilar smBiosimilarPred r5
  let r7 := applyFlagFilter p.conditional_approval smConditionalPred r6
  r7

/-- The individual filter predicates of `searchMedicines`, in the source's
fixed order; an omitted filter contributes a no-op predicate. -/
def smFilterChain (p : SearchMedicinesParams) : List (Record → Bool) :=
  [ optTextPred p.active_substance smActivePred,
    optTextPred p.therapeutic_area smTherapeuticPred,
    optTextPred p.status smStatusPred,
    flagPred p.orphan smOrphanPred,
    flagPred p.prime smPrimePred,
    flagPred p.biosimilar smBiosimilarPred,
    flagPred p.conditional_approval smConditionalPred ]

/-- Function `searchMedicines` from the source: limit and status validation, fetch,
filter chain, truncation, envelope. -/
def searchMedicines (p : SearchMedicinesParams) (now : String) :
    HandlerResult Envelope :=
  if limitInvalid p.limit then .validationError limitMsg
  else if enumInvalid p.status ["Authorised", "Withdrawn", "Refused", "Suspended"] then
    .validationError "status must be one of: Authorised, Withdrawn, Refused, Suspended"
  else
    .fetchThen smUrl (fun allMedicines =>
      let filtered := smApplyFilters p allMedicines
      let lim := jsOr p.limit 100
      let results := filtered.take lim.toNat
      { total_count := results.length
        results := results
        source := "EMA Medicines Database"
        source_url := smUrl
        last_updated := now })

/-- For `getMedicineByName`: the `find` callback
`m.name_of_medicine && m.name_of_medicine.toLowerCase().includes(searchTerm)`. -/
def medNameMatches (searchTerm : String) (m : Record) : Bool :=
  fieldContainsLower m "name_of_medicine" searchTerm

/-- Function `getMedicineByName` from the source. The argument is `none` when the
caller omits the required `name`; `!name || name.trim().length === 0`
collapses to the trimmed-emptiness test in the typed embedding (the
`typeof` arm is vacuous). -/
def getMedicineByName (name : Option String) (now : String) :
    HandlerResult Lookup :=
  match name with
  | none =>
    .validationError "name parameter is required and must be a non-empty string"
  | some s =>
    if jsTrim s = "" then
      .validationError "name parameter is required and must be a non-empty string"
    else
      .fetchThen smUrl (fun allMedicines =>
        match allMedicines.find? (medNameMatches (lowerStr (jsTrim s))) with
        | none =>
          .notFound ("Medicine \"" ++ s ++ "\" not found in EMA database")
            "EMA Medicines Database" smUrl
        | some medicine =>
          .found medicine "EMA Medicines Database" smUrl now)

/-- Parameter bag of `getReferrals`. -/
structure ReferralsParams where
  safety : Option Bool := none
  active_substance : Option String := none
  status : Option String := none
  year : Option Int := none
  limit : Option Int := none

/-- Endpoint URL of the referrals dataset. -/
def refUrl : String := generateEmaUrl "referrals-output-json-report_en.json"

/-- For `getReferrals`: `r.safety_referral === 'Sì' || r.safety_referral ===
'Yes'`. -/
def refSafetyYesPred (r : Record) : Bool :=
  r.get "safety_referral" == some "Sì" || r.get "safety_referral" == some "Yes"

/-- For `getReferrals`: `r.safety_referral === 'No'`. -/
def refSafetyNoPred (r : Record) : Bool :=
  r.get "safety_referral" == some "No"

/-- The `if (params.safety === true) ... else if (params.safety === false)
...` filter step of `getReferrals`. -/
def applySafetyFilter (p : Option Bool) (l : List Record) : List Record :=
  match p with
  | some true => l.filter refSafetyYesPred
  | some false => l.filter refSafetyNoPred
  | none => l

/-- The predicate the safety flag contributes to the chain. -/
def safetyPred (p : Option Bool) : Record → Bool :=
  match p with
  | some true => refSafetyYesPred
  | some false => refSafetyNoPred
  | none => fun _ => true

/-- For `getReferrals`: active-substance filter body. -/
def refActivePred (t : String) (r : Record) : Bool :=
  fieldContainsLower r "international_non_proprietary_name_inn_common_name"
    (lowerStr t)

/-- For `getReferrals`: status filter body (case-insensitive substring on
`current_status`). -/
def refStatusPred (t : String) (r : Record) : Bool :=
  fieldContainsLower r "current_status" (lowerStr t)

/-- For `getReferrals`: year filter body (raw substring of the year's decimal
rendering in `procedure_start_date`). -/
def refYearPred (n : Int) (r : Record) : Bool :=
  fieldContainsRaw r "procedure_start_date" (toString n)

/-- The filter section of `getReferrals`, in the source's fixed order. -/
def refApplyFilters (p : ReferralsParams) (coll : List Record) :
    List Record :=
  let r1 := applySafetyFilter p.safety coll
  let r2 := applyOptTextFilter p.active_substance refActivePred r1
  let r3 := applyOptTextFilter p.status refStatusPred r2
  let r4 := applyOptNumFilter p.year refYearPred r3
  r4

/-- The individual filter predicates of `getReferrals`, in the source's
fixed order. -/
def refFilterChain (p : ReferralsParams) : List (Record → Bool) :=
  [ safetyPred p.safety,
    optTextPred p.active_substance refActivePred,
    optTextPred p.status refStatusPred,
    optNumPred p.year refYearPred ]

/-- Function `getReferrals` from the source. The `typeof params.safety !==
'boolean'` validation is vacuous in the typed embedding; the wall-clock
year of the validation bound is threaded as `currentYear`. -/
def getReferrals (p : ReferralsParams) (currentYear : Int) (now : String) :
    HandlerResult Envelope :=
  if limitInvalid p.limit then .validationError limitMsg
  else if yearInvalid p.year currentYear then
    .validationError (yearMsg currentYear)
  else
    .fetchThen refUrl (fun allReferrals =>
      let filtered := refApplyFilters p allReferrals
      let lim := jsOr p.limit 50
      let results := filtered.take lim.toNat
      { total_count := results.length
        results := results
        source := "EMA Referrals"
        source_url := refUrl
        last_updated := now })

/-- Parameter bag of `getPostAuthProcedures`. -/
structure PostAuthParams where
  medicine_name : Option String := none
  limit : Option Int := none

/-- Endpoint URL of the post-authorisation dataset. -/
def paUrl : String :=
  generateEmaUrl "medicines-output-post_authorisation_json-report_en.json"

/-- For `getPostAuthProcedures`: medicine-name filter body. -/
def paMedNamePred (t : String) (r : Record) : Bool :=
  fieldContainsLower r "medicine_name" (lowerStr t)

/-- Function `getPostAuthProcedures` from the source. -/
def getPostAuthProcedures (p : PostAuthParams) (now : String) :
    HandlerResult Envelope :=
  if limitInvalid p.limit then .validationError limitMsg
  else
    .fetchThen paUrl (fun allProcedures =>
      let filtered := applyOptTextFilter p.medicine_name paMedNamePred allProcedures
      let lim := jsOr p.limit 50
      let results := filtered.take lim.toNat
      { total_count := results.length
        results := results
        source := "EMA Post-Authorization Procedures"
        source_url := paUrl
        last_updated := now })

/-- Parameter bag of the `getHerbalMedicines` stub. -/
structure HerbalParams where
  substance : Option String := none
  therapeutic_area : Option String := none
  limit : Option Int := none

/-- For `getHerbalMedicines`: substance filter body (two alternative
fields). -/
def herbSubstancePred (t : String) (h : Record) : Bool :=
  fieldContainsLower h "herbal_substance" (lowerStr t) ||
  fieldContainsLower h "botanical_name" (lowerStr t)

/-- For `getHerbalMedicines`: therapeutic-area filter body. -/
def herbTherapeuticPred (t : String) (h : Record) : Bool :=
  fieldContainsLower h "therapeutic_area" (lowerStr t)

/-- Function `getHerbalMedicines` from the source: a stub whose collection is the
hard-coded empty array; no fetch is issued, so the outcome is `pure`. -/
def getHerbalMedicines (p : HerbalParams) (now : String) :
    HandlerResult Envelope :=
  if limitInvalid p.limit then .validationError limitMsg
  else
    let allHerbal : List Record := []
    let r1 := applyOptTextFilter p.substance herbSubstancePred allHerbal
    let r2 := applyOptTextFilter p.therapeutic_area herbTherapeuticPred r1
    let lim := jsOr p.limit 50
    let results := r2.take lim.toNat
    .pure
      { total_count := results.length
        results := results
        source := "EMA Herbal Medicines (placeholder - no JSON endpoint available)"
        source_url := "https://www.ema.europa.eu/en/medicines/download-medicine-data"
        last_updated := now }

/-- Parameter bag of the `getArticle58Medicines` stub. -/
structure Article58Params where
  active_substance : Option String := none
  medicine_name : Option String := none
  limit : Option Int := none

/-- For `getArticle58Medicines`: active-substance filter body. -/
def a58ActivePred (t : String) (m : Record) : Bool :=
  fieldContainsLower m "active_substance" (lowerStr t)

/-- For `getArticle58Medicines`: medicine-name filter body. -/
def a58MedNamePred (t : String) (m : Record) : Bool :=
  fieldContainsLower m "medicine_name" (lowerStr t)

/-- Function `getArticle58Medicines` from the source: a stub over the hard-coded
empty array; no fetch is issued. -/
def getArticle58Medicines (p : Article58Params) (now : String) :
    HandlerResult Envelope :=
  if limitInvalid p.limit then .validationError limitMsg
  else
    let allArticle58 : List Record := []
    let r1 := applyOptTextFilter p.active_substance a58ActivePred allArticle58
    let r2 := applyOptTextFilter p.medicine_name a58MedNamePred r1
    let lim := jsOr p.limit 50
    let results := r2.take lim.toNat
    .pure
      { total_count := results.length
        results := results
        source := "EMA Medicines for Use Outside EU - Article 58 (placeholder - no JSON endpoint available)"
        source_url := "https://www.ema.europa.eu/en/medicines/download-medicine-data"
        last_updated := now }

/-- The spec's definition of the effective limit for Claim C1: "the
supplied limit parameter, or the handler's default when absent".
Modelled from the spec, for comparison against the source's
`params.limit || default` (`jsOr`), which also replaces a falsy `0`. -/
def claimedEffectiveLimit (l : Option Int) (dflt : Int) : Int :=
  match l with
  | some n => n
  | none => dflt

/-! ### General lemmas about the string and filter model -/

/-- Two strings with equal character lists are equal. -/
theorem String.eq_of_data_eq {s t : String} (h : s.data = t.data) : s = t :=
  congrArg String.mk h

/-- Lowering a character does not change whether it is whitespace: the
basic-latin letters moved by `Char.toLower` are not whitespace, and every
other character is fixed. -/
theorem isWhitespace_toLower (c : Char) :
    (Char.toLower c).isWhitespace = c.isWhitespace := by
  show (if c.toNat ≥ 65 ∧ c.toNat ≤ 90 then Char.ofNat (c.toNat + 32)
    else c).isWhitespace = c.isWhitespace
  split
  · rename_i h
    obtain ⟨h1, h2⟩ := h
    have hc : c.isWhitespace = false := by
      simp only [Char.isWhitespace, Bool.or_eq_false_iff, decide_eq_false_iff_not]
      refine ⟨⟨⟨?_, ?_⟩, ?_⟩, ?_⟩ <;> intro hEq <;> subst hEq <;>
        exact absurd h1 (by decide)
    have hlow : (Char.ofNat (Char.toNat c + 32)).isWhitespace = false := by
      have h97 : 97 ≤ Char.toNat c + 32 := by omega
      have h122 : Char.toNat c + 32 ≤ 122 := by omega
      generalize Char.toNat c + 32 = m at h97 h122
      interval_cases m <;> decide
    rw [hc, hlow]
  · rfl

/-- The character-level lowering map commutes with trimming. -/
theorem trimChars_map_toLower (l : List Char) :
    trimChars (l.map Char.toLower) = (trimChars l).map Char.toLower := by
  have hws : (Char.isWhitespace ∘ Char.toLower) = Char.isWhitespace :=
    funext fun c => isWhitespace_toLower c
  unfold trimChars
  rw [List.dropWhile_map, hws, ← List.map_reverse, List.dropWhile_map, hws,
    ← List.map_reverse]

/-- Lowering commutes with trimming at the string level. -/
theorem lowerStr_jsTrim (s : String) :
    lowerStr (jsTrim s) = jsTrim (lowerStr s) :=
  String.eq_of_data_eq (trimChars_map_toLower s.data).symm

/-- Lowering maps exactly the empty string to the empty string. -/
theorem lowerStr_eq_empty_iff (s : String) : lowerStr s = "" ↔ s = "" := by
  constructor
  · intro h
    have hd : s.data.map Char.toLower = [] := congrArg String.data h
    exact String.eq_of_data_eq (List.map_eq_nil_iff.mp hd)
  · intro h; subst h; rfl

/-- Dropping a leading run of characters that fail the predicate is the
identity. -/
theorem dropWhile_eq_self_of_all {p : Char → Bool} {l : List Char}
    (h : ∀ c ∈ l, p c = false) : l.dropWhile p = l := by
  cases l with
  | nil => rfl
  | cons c rest => simp [List.dropWhile_cons, h c (by simp)]

/-- Trimming a list with no whitespace characters is the identity. -/
theorem trimChars_eq_self_of_no_ws {l : List Char}
    (h : ∀ c ∈ l, c.isWhitespace = false) : trimChars l = l := by
  unfold trimChars
  rw [dropWhile_eq_self_of_all h,
    dropWhile_eq_self_of_all (fun c hc => h c (List.mem_reverse.mp hc)),
    List.reverse_reverse]

/-- A substring found in the second half of a concatenation is found in the
concatenation. -/
theorem infixCheck_append_left {needle b : List Char}
    (h : infixCheck needle b = true) (a : List Char) :
    infixCheck needle (a ++ b) = true := by
  induction a with
  | nil => simpa using h
  | cons c rest ih => simp [infixCheck, ih]

/-- Filtering by two predicates in either order gives the same list. -/
theorem filter_swap (p q : Record → Bool) (l : List Record) :
    (l.filter p).filter q = (l.filter q).filter p := by
  rw [List.filter_filter, List.filter_filter]
  exact List.filter_congr fun x _ => Bool.and_comm _ _

/-- Unfolding one step of `applyPreds`. -/
theorem applyPreds_cons (p : Record → Bool) (ps : List (Record → Bool))
    (l : List Record) : applyPreds (p :: ps) l = applyPreds ps (l.filter p) :=
  rfl

/-- Applying a chain of filter predicates is invariant under permutation of
the chain. -/
theorem applyPreds_perm {ps qs : List (Record → Bool)} (h : ps.Perm qs) :
    ∀ l, applyPreds ps l = applyPreds qs l := by
  induction h with
  | nil => intro l; rfl
  | cons p _ ih => intro l; rw [applyPreds_cons, applyPreds_cons, ih]
  | swap p q rest =>
    intro l
    rw [applyPreds_cons, applyPreds_cons, applyPreds_cons, applyPreds_cons,
      filter_swap]
  | trans _ _ ih1 ih2 => intro l; rw [ih1, ih2]

/-- A chain of filters only ever narrows the working set, keeping order:
the output is a sublist of the input. -/
theorem applyPreds_sublist (ps : List (Record → Bool)) :
    ∀ l, List.Sublist (applyPreds ps l) l := by
  induction ps with
  | nil => intro l; exact List.Sublist.refl l
  | cons p ps ih =>
    intro l
    exact (ih (l.filter p)).trans (List.filter_sublist l)

/-- An optional text filter step is filtering by the predicate it
contributes to the chain. -/
theorem applyOptTextFilter_eq (p : Option String)
    (f : String → Record → Bool) (l : List Record) :
    applyOptTextFilter p f l = l.filter (optTextPred p f) := by
  cases p with
  | none => simp [applyOptTextFilter, optTextPred]
  | some t =>
    by_cases h : t = "" <;> simp [applyOptTextFilter, optTextPred, h]

/-- An optional numeric filter step is filtering by the predicate it
contributes to the chain. -/
theorem applyOptNumFilter_eq (p : Option Int) (f : Int → Record → Bool)
    (l : List Record) :
    applyOptNumFilter p f l = l.filter (optNumPred p f) := by
  cases p with
  | none => simp [applyOptNumFilter, optNumPred]
  | some n =>
    by_cases h : n = 0 <;> simp [applyOptNumFilter, optNumPred, h]

/-- A flag filter step is filtering by the predicate it contributes to the
chain. -/
theorem applyFlagFilter_eq (p : Option Bool) (f : Record → Bool)
    (l : List Record) :
    applyFlagFilter p f l = l.filter (flagPred p f) := by
  by_cases h : p = some true <;> simp [applyFlagFilter, flagPred, h]

/-- The safety filter step of `getReferrals` is filtering by the predicate
it contributes to the chain. -/
theorem applySafetyFilter_eq (p : Option Bool) (l : List Record) :
    applySafetyFilter p l = l.filter (safetyPred p) := by
  cases p with
  | none => simp [applySafetyFilter, safetyPred]
  | some b => cases b <;> simp [applySafetyFilter, safetyPred]

/-- The filter section of `searchMedicines` is the sequential application
of its filter chain. -/
theorem smApplyFilters_eq (p : SearchMedicinesParams) (coll : List Record) :
    smApplyFilters p coll = applyPreds (smFilterChain p) coll := by
  simp [smApplyFilters, smFilterChain, applyPreds,
    applyOptTextFilter_eq, applyFlagFilter_eq]

/-- The filter section of `getReferrals` is the sequential application of
its filter chain. -/
theorem refApplyFilters_eq (p : ReferralsParams) (coll : List Record) :
    refApplyFilters p coll = applyPreds (refFilterChain p) coll := by
  simp [refApplyFilters, refFilterChain, applyPreds,
    applyOptTextFilter_eq, applyOptNumFilter_eq, applySafetyFilter_eq]

/-! ### Claim theorems -/

/-- Claim C2, amended: `parseDate("15 March 2024") = "2024-03-15"`; the
inputs `""`, `null`, `"garbage"` and `"3 Marchh 2024"` all yield `null`;
the function is total; and every input whose trimmed space-split token
count differs from three, or whose middle token is not a recognized full
English month name, yields `null`. (Day and year tokens are not validated:
see the counterexample.) -/
theorem parseEmaDate_spec :
    parseEmaDate (some "15 March 2024") = some "2024-03-15" ∧
    parseEmaDate (some "") = none ∧
    parseEmaDate none = none ∧
    parseEmaDate (some "garbage") = none ∧
    parseEmaDate (some "3 Marchh 2024") = none ∧
    (∀ s : String, (jsSplitSpace (jsTrim s)).length ≠ 3 →
      parseEmaDate (some s) = none) ∧
    (∀ (s d mon y : String), jsSplitSpace (jsTrim s) = [d, mon, y] →
      monthToNum mon = none → parseEmaDate (some s) = none) := by
  refine ⟨by decide, by decide, rfl, by decide, by decide, ?_, ?_⟩
  · intro s h
    by_cases hs : s = ""
    · simp [parseEmaDate, hs]
    · rcases hsp : jsSplitSpace (jsTrim s) with _ | ⟨a, _ | ⟨b, _ | ⟨c, _ | ⟨e, rest⟩⟩⟩⟩
      · simp [parseEmaDate, hs, hsp]
      · simp [parseEmaDate, hs, hsp]
      · simp [parseEmaDate, hs, hsp]
      · exact absurd (by rw [hsp]; rfl) h
      · simp [parseEmaDate, hs, hsp]
  · intro s d mon y hsp hmon
    by_cases hs : s = ""
    · simp [parseEmaDate, hs]
    · simp [parseEmaDate, hs, hsp, hmon]

/-- Claim C2, counterexample to the claim as stated: the input
`"x March y"` is not of the `"<day> <FullMonthName> <year>"` form (its day
and year tokens are not numerals), yet `parseEmaDate` does not return
`null` on it: the day and year tokens are interpolated unvalidated. -/
theorem parseEmaDate_unvalidated_day_year :
    parseEmaDate (some "x March y") = some "y-03-0x" := by decide

/-- Claim C2, witness for the amended theorem at a concrete input. -/
theorem parseEmaDate_spec_witness : parseEmaDate (some "ab cd") = none :=
  parseEmaDate_spec.2.2.2.2.2.1 "ab cd" (by decide)

/-- Claim C3, amended: for every embedded handler accepting a `limit`
parameter, `limit = 10000` is accepted and `limit = 10001` is rejected
with the `limit` validation error before any network access (the outcome
is the `validationError` constructor, which carries no fetch); a supplied
`limit = 0`, however, is NOT rejected — `0` is falsy, so validation is
skipped and the default limit applies. -/
theorem limit_boundary_validation :
    (∀ now, (searchMedicines { limit := some 10000 } now).isValidationError = false) ∧
    (∀ now, searchMedicines { limit := some 10001 } now = .validationError limitMsg) ∧
    (∀ now, (searchMedicines { limit := some 0 } now).isValidationError = false) ∧
    (∀ cy now, (getReferrals { limit := some 10000 } cy now).isValidationError = false) ∧
    (∀ cy now, getReferrals { limit := some 10001 } cy now = .validationError limitMsg) ∧
    (∀ cy now, (getReferrals { limit := some 0 } cy now).isValidationError = false) ∧
    (∀ now, (getPostAuthProcedures { limit := some 10000 } now).isValidationError = false) ∧
    (∀ now, getPostAuthProcedures { limit := some 10001 } now = .validationError limitMsg) ∧
    (∀ now, (getPostAuthProcedures { limit := some 0 } now).isValidationError = false) ∧
    (∀ now, (getHerbalMedicines { limit := some 10000 } now).isValidationError = false) ∧
    (∀ now, getHerbalMedicines { limit := some 10001 } now = .validationError limitMsg) ∧
    (∀ now, (getHerbalMedicines { limit := some 0 } now).isValidationError = false) ∧
    (∀ now, (getArticle58Medicines { limit := some 10000 } now).isValidationError = false) ∧
    (∀ now, getArticle58Medicines { limit := some 10001 } now = .validationError limitMsg) ∧
    (∀ now, (getArticle58Medicines { limit := some 0 } now).isValidationError = false) := by
  refine ⟨fun _ => rfl, fun _ => rfl, fun _ => rfl, fun _ _ => ?_, fun _ _ => ?_,
    fun _ _ => ?_, fun _ => rfl, fun _ => rfl, fun _ => rfl, fun _ => rfl,
    fun _ => rfl, fun _ => rfl, fun _ => rfl, fun _ => rfl, fun _ => rfl⟩ <;>
    simp [getReferrals, limitInvalid, yearInvalid, HandlerResult.isValidationError]

/-- Claim C3, counterexample to the claim as stated: a call with
`limit = 0` is not rejected with a `ValidationError`; it succeeds, the
falsy `0` being replaced by the default limit. -/
theorem searchMedicines_zero_limit_not_rejected :
    (searchMedicines { limit := some 0 } "2024-01-01T00:00:00.000Z").run [] =
      .ok { total_count := 0, results := [],
            source := "EMA Medicines Database", source_url := smUrl,
            last_updated := "2024-01-01T00:00:00.000Z" } := rfl

/-- Claim C7: for every parameter bag that passes limit validation, the
stub handlers return the empty envelope — `total_count = 0`,
`results = []` — regardless of any supplied filter parameters, and the
outcome is the `pure` constructor, which performs no network call. -/
theorem stub_handlers_empty :
    (∀ (p : HerbalParams) (now : String), limitInvalid p.limit = false →
      getHerbalMedicines p now = .pure
        { total_count := 0, results := []
          source := "EMA Herbal Medicines (placeholder - no JSON endpoint available)"
          source_url := "https://www.ema.europa.eu/en/medicines/download-medicine-data"
          last_updated := now }) ∧
    (∀ (p : Article58Params) (now : String), limitInvalid p.limit = false →
      getArticle58Medicines p now = .pure
        { total_count := 0, results := []
          source := "EMA Medicines for Use Outside EU - Article 58 (placeholder - no JSON endpoint available)"
          source_url := "https://www.ema.europa.eu/en/medicines/download-medicine-data"
          last_updated := now }) := by
  constructor
  · intro p now h
    unfold getHerbalMedicines
    rw [if_neg (by simp [h])]
    cases p.substance <;> cases p.therapeutic_area <;>
      simp [applyOptTextFilter]
  · intro p now h
    unfold getArticle58Medicines
    rw [if_neg (by simp [h])]
    cases p.active_substance <;> cases p.medicine_name <;>
      simp [applyOptTextFilter]

/-- Claim C7, witness at a concrete parameter bag with filters and a valid
limit. -/
theorem stub_handlers_empty_witness :
    getHerbalMedicines { substance := some "mint", limit := some 5 } "T" = .pure
      { total_count := 0, results := []
        source := "EMA Herbal Medicines (placeholder - no JSON endpoint available)"
        source_url := "https://www.ema.europa.eu/en/medicines/download-medicine-data"
        last_updated := "T" } :=
  stub_handlers_empty.1 { substance := some "mint", limit := some 5 } "T" (by decide)

/-- Claim C8, amended: every failure of either fetcher is surfaced as a
single generic `Error` value distinguished only by its message text, which
falls into four shapes: the timeout message, the HTTP-error message (with
status and status text interpolated), the network-error message, or the
`EMA API request failed: ` prefix. An invalid response shape is rethrown
through the generic catch-all and therefore shares the request-failure
prefix instead of having a kind of its own. -/
theorem fetch_failures_message_taxonomy :
    (∀ (o : FetchOutcome) (m : String), makeEmaRequest o = .error m →
      m = timeoutMsg ∨ (∃ st stx, m = httpErrorMsg st stx) ∨
      m = networkMsg ∨ (∃ d, m = requestFailedMsg d)) ∧
    (∀ (o : FetchOutcome) (m : String), makeEmaDocumentRequest o = .error m →
      m = timeoutMsg ∨ (∃ st stx, m = httpErrorMsg st stx) ∨
      m = networkMsg ∨ (∃ d, m = requestFailedMsg d)) := by
  constructor <;> intro o m h <;>
    rcases o with (⟨items⟩ | ⟨_ | items⟩) | _ | ⟨st, stx⟩ | _ | d <;>
    simp [makeEmaRequest, makeEmaDocumentRequest] at h <;> subst h <;>
    simp

/-- Claim C8, counterexample to the claim as stated: the failure kinds are
not distinguishable as distinct constructors — an invalid response shape
and a request-construction failure carrying the same detail produce
literally equal error values (the single `Error` kind with an identical
message). -/
theorem fetch_error_kinds_collide :
    makeEmaRequest (.success (.obj none)) =
      makeEmaRequest (.requestSetupError "EMA API returned non-array response") ∧
    makeEmaRequest (.success (.obj none)) =
      .error "EMA API request failed: EMA API returned non-array response" :=
  ⟨rfl, rfl⟩

/-- Claim C8, witness for the amended theorem at the timeout outcome. -/
theorem fetch_failures_message_taxonomy_witness :
    timeoutMsg = timeoutMsg ∨ (∃ st stx, timeoutMsg = httpErrorMsg st stx) ∨
    timeoutMsg = networkMsg ∨ (∃ d, timeoutMsg = requestFailedMsg d) :=
  fetch_failures_message_taxonomy.1 .timeout timeoutMsg rfl

/-- Claim C1, counterexample to the claim as stated: the bag
`{limit: 0}` passes validation (`0` is falsy, so the limit check is
skipped), yet the envelope returned for a one-record collection holds one
result, exceeding the claimed effective limit — "the supplied limit
parameter" — which is `0`. -/
theorem searchMedicines_claimed_limit_cex :
    (searchMedicines { limit := some 0 } "T").run [[("x", "y")]] =
      .ok { total_count := 1, results := [[("x", "y")]],
            source := "EMA Medicines Database", source_url := smUrl,
            last_updated := "T" } ∧
    ¬ ((1 : Int) ≤ claimedEffectiveLimit (some 0) 100) :=
  ⟨rfl, by decide⟩

/-- Claim C1, amended: for every embedded handler and every parameter bag
that passes validation, `total_count` equals the length of `results`, and
the length of `results` is at most the effective limit — the supplied
limit when it is non-zero, and the handler's default otherwise (absent or
zero), i.e. `jsOr params.limit default`. -/
theorem envelope_count_le_effective_limit :
    (∀ (p : SearchMedicinesParams) (now : String) (coll : List Record)
      (env : Envelope), (searchMedicines p now).run coll = .ok env →
      env.total_count = env.results.length ∧
      env.results.length ≤ (jsOr p.limit 100).toNat) ∧
    (∀ (p : ReferralsParams) (cy : Int) (now : String) (coll : List Record)
      (env : Envelope), (getReferrals p cy now).run coll = .ok env →
      env.total_count = env.results.length ∧
      env.results.length ≤ (jsOr p.limit 50).toNat) ∧
    (∀ (p : PostAuthParams) (now : String) (coll : List Record)
      (env : Envelope), (getPostAuthProcedures p now).run coll = .ok env →
      env.total_count = env.results.length ∧
      env.results.length ≤ (jsOr p.limit 50).toNat) ∧
    (∀ (p : HerbalParams) (now : String) (coll : List Record)
      (env : Envelope), (getHerbalMedicines p now).run coll = .ok env →
      env.total_count = env.results.length ∧
      env.results.length ≤ (jsOr p.limit 50).toNat) ∧
    (∀ (p : Article58Params) (now : String) (coll : List Record)
      (env : Envelope), (getArticle58Medicines p now).run coll = .ok env →
      env.total_count = env.results.length ∧
      env.results.length ≤ (jsOr p.limit 50).toNat) := by
  refine ⟨?_, ?_, ?_, ?_, ?_⟩
  · intro p now coll env h
    unfold searchMedicines at h
    split at h
    · exact absurd h (by simp [HandlerResult.run])
    · split at h
      · exact absurd h (by simp [HandlerResult.run])
      · simp only [HandlerResult.run, Except.ok.injEq] at h
        subst h
        exact ⟨rfl, List.length_take_le _ _⟩
  · intro p cy now coll env h
    unfold getReferrals at h
    split at h
    · exact absurd h (by simp [HandlerResult.run])
    · split at h
      · exact absurd h (by simp [HandlerResult.run])
      · simp only [HandlerResult.run, Except.ok.injEq] at h
        subst h
        exact ⟨rfl, List.length_take_le _ _⟩
  · intro p now coll env h
    unfold getPostAuthProcedures at h
    split at h
    · exact absurd h (by simp [HandlerResult.run])
    · simp only [HandlerResult.run, Except.ok.injEq] at h
      subst h
      exact ⟨rfl, List.length_take_le _ _⟩
  · intro p now coll env h
    unfold getHerbalMedicines at h
    split at h
    · exact absurd h (by simp [HandlerResult.run])
    · simp only [HandlerResult.run, Except.ok.injEq] at h
      subst h
      exact ⟨rfl, List.length_take_le _ _⟩
  · intro p now coll env h
    unfold getArticle58Medicines at h
    split at h
    · exact absurd h (by simp [HandlerResult.run])
    · simp only [HandlerResult.run, Except.ok.injEq] at h
      subst h
      exact ⟨rfl, List.length_take_le _ _⟩

/-- Claim C1, witness for the amended theorem at a concrete call. -/
theorem envelope_count_le_effective_limit_witness :
    ({ total_count := 2, results := [[("a", "1")], [("a", "2")]],
       source := "EMA Medicines Database", source_url := smUrl,
       last_updated := "T" } : Envelope).total_count =
      ({ total_count := 2, results := [[("a", "1")], [("a", "2")]],
         source := "EMA Medicines Database", source_url := smUrl,
         last_updated := "T" } : Envelope).results.length ∧
    ({ total_count := 2, results := [[("a", "1")], [("a", "2")]],
       source := "EMA Medicines Database", source_url := smUrl,
       last_updated := "T" } : Envelope).results.length ≤
      (jsOr (some 2) 100).toNat :=
  envelope_count_le_effective_limit.1 { limit := some 2 } "T"
    [[("a", "1")], [("a", "2")], [("a", "3")]]
    { total_count := 2, results := [[("a", "1")], [("a", "2")]],
      source := "EMA Medicines Database", source_url := smUrl,
      last_updated := "T" } rfl

/-- Claim C4: for every embedded list-returning handler, if the parameter
bag supplies no filter parameters (only, possibly, a limit), the envelope's
results are exactly the prefix of the fetched collection of length
`min(effective limit, collection size)`, in the collection's original
order; the effective limit is `jsOr limit default`, the value the source
computes with `params.limit || default`. -/
theorem no_filter_prefix_of_collection :
    (∀ (l : Option Int) (now : String) (coll : List Record) (env : Envelope),
      (searchMedicines { limit := l } now).run coll = .ok env →
      env.results = coll.take (jsOr l 100).toNat ∧
      env.results.length = min (jsOr l 100).toNat coll.length) ∧
    (∀ (l : Option Int) (cy : Int) (now : String) (coll : List Record)
      (env : Envelope),
      (getReferrals { limit := l } cy now).run coll = .ok env →
      env.results = coll.take (jsOr l 50).toNat ∧
      env.results.length = min (jsOr l 50).toNat coll.length) ∧
    (∀ (l : Option Int) (now : String) (coll : List Record) (env : Envelope),
      (getPostAuthProcedures { limit := l } now).run coll = .ok env →
      env.results = coll.take (jsOr l 50).toNat ∧
      env.results.length = min (jsOr l 50).toNat coll.length) := by
  refine ⟨?_, ?_, ?_⟩
  · intro l now coll env h
    unfold searchMedicines at h
    split at h
    · exact absurd h (by simp [HandlerResult.run])
    · split at h
      · exact absurd h (by simp [HandlerResult.run])
      · simp only [HandlerResult.run, Except.ok.injEq] at h
        subst h
        have hfil : smApplyFilters { limit := l } coll = coll := by
          simp [smApplyFilters, applyOptTextFilter, applyFlagFilter]
        simp [hfil, List.length_take]
  · intro l cy now coll env h
    unfold getReferrals at h
    split at h
    · exact absurd h (by simp [HandlerResult.run])
    · split at h
      · exact absurd h (by simp [HandlerResult.run])
      · simp only [HandlerResult.run, Except.ok.injEq] at h
        subst h
        have hfil : refApplyFilters { limit := l } coll = coll := by
          simp [refApplyFilters, applySafetyFilter, applyOptTextFilter,
            applyOptNumFilter]
        simp [hfil, List.length_take]
  · intro l now coll env h
    unfold getPostAuthProcedures at h
    split at h
    · exact absurd h (by simp [HandlerResult.run])
    · simp only [HandlerResult.run, Except.ok.injEq] at h
      subst h
      simp [applyOptTextFilter, List.length_take]

/-- Claim C4, witness at a concrete call with three records and limit 2. -/
theorem no_filter_prefix_of_collection_witness :
    ({ total_count := 2, results := [[("b", "1")], [("b", "2")]],
       source := "EMA Medicines Database", source_url := smUrl,
       last_updated := "T" } : Envelope).results =
      ([[("b", "1")], [("b", "2")], [("b", "3")]] : List Record).take
        (jsOr (some 2) 100).toNat ∧
    ({ total_count := 2, results := [[("b", "1")], [("b", "2")]],
       source := "EMA Medicines Database", source_url := smUrl,
       last_updated := "T" } : Envelope).results.length =
      min (jsOr (some 2) 100).toNat
        ([[("b", "1")], [("b", "2")], [("b", "3")]] : List Record).length :=
  no_filter_prefix_of_collection.1 (some 2) "T"
    [[("b", "1")], [("b", "2")], [("b", "3")]]
    { total_count := 2, results := [[("b", "1")], [("b", "2")]],
      source := "EMA Medicines Database", source_url := smUrl,
      last_updated := "T" } rfl

/-- Claim C10: for every embedded list-returning handler and every
parameter bag whose validation passes, the returned results form a
sublist of the fetched collection — every record returned is an element of
the fetched array, unmodified, in its original relative order, with no
duplication beyond the original. -/
theorem results_sublist_of_fetched :
    (∀ (p : SearchMedicinesParams) (now : String) (coll : List Record)
      (env : Envelope), (searchMedicines p now).run coll = .ok env →
      List.Sublist env.results coll) ∧
    (∀ (p : ReferralsParams) (cy : Int) (now : String) (coll : List Record)
      (env : Envelope), (getReferrals p cy now).run coll = .ok env →
      List.Sublist env.results coll) ∧
    (∀ (p : PostAuthParams) (now : String) (coll : List Record)
      (env : Envelope), (getPostAuthProcedures p now).run coll = .ok env →
      List.Sublist env.results coll) ∧
    (∀ (p : HerbalParams) (now : String) (coll : List Record)
      (env : Envelope), (getHerbalMedicines p now).run coll = .ok env →
      List.Sublist env.results coll) ∧
    (∀ (p : Article58Params) (now : String) (coll : List Record)
      (env : Envelope), (getArticle58Medicines p now).run coll = .ok env →
      List.Sublist env.results coll) := by
  refine ⟨?_, ?_, ?_, ?_, ?_⟩
  · intro p now coll env h
    unfold searchMedicines at h
    split at h
    · exact absurd h (by simp [HandlerResult.run])
    · split at h
      · exact absurd h (by simp [HandlerResult.run])
      · simp only [HandlerResult.run, Except.ok.injEq] at h
        subst h
        refine (List.take_sublist _ _).trans ?_
        rw [smApplyFilters_eq]
        exact applyPreds_sublist _ coll
  · intro p cy now coll env h
    unfold getReferrals at h
    split at h
    · exact absurd h (by simp [HandlerResult.run])
    · split at h
      · exact absurd h (by simp [HandlerResult.run])
      · simp only [HandlerResult.run, Except.ok.injEq] at h
        subst h
        refine (List.take_sublist _ _).trans ?_
        rw [refApplyFilters_eq]
        exact applyPreds_sublist _ coll
  · intro p now coll env h
    unfold getPostAuthProcedures at h
    split at h
    · exact absurd h (by simp [HandlerResult.run])
    · simp only [HandlerResult.run, Except.ok.injEq] at h
      subst h
      refine (List.take_sublist _ _).trans ?_
      rw [applyOptTextFilter_eq]
      exact List.filter_sublist coll
  · intro p now coll env h
    unfold getHerbalMedicines at h
    split at h
    · exact absurd h (by simp [HandlerResult.run])
    · simp only [HandlerResult.run, Except.ok.injEq] at h
      subst h
      refine (List.take_sublist _ _).trans ?_
      rw [applyOptTextFilter_eq, applyOptTextFilter_eq]
      exact ((List.filter_sublist _).trans (List.filter_sublist _)).trans
        (List.nil_sublist coll)
  · intro p now coll env h
    unfold getArticle58Medicines at h
    split at h
    · exact absurd h (by simp [HandlerResult.run])
    · simp only [HandlerResult.run, Except.ok.injEq] at h
      subst h
      refine (List.take_sublist _ _).trans ?_
      rw [applyOptTextFilter_eq, applyOptTextFilter_eq]
      exact ((List.filter_sublist _).trans (List.filter_sublist _)).trans
        (List.nil_sublist coll)

/-- Claim C10, witness at a concrete filtered call. -/
theorem results_sublist_of_fetched_witness :
    List.Sublist
      ({ total_count := 1, results := [[("active_substance", "semaglutide")]],
         source := "EMA Medicines Database", source_url := smUrl,
         last_updated := "T" } : Envelope).results
      [[("active_substance", "metformin")],
       [("active_substance", "semaglutide")]] :=
  results_sublist_of_fetched.1 { active_substance := some "sema" } "T"
    [[("active_substance", "metformin")],
     [("active_substance", "semaglutide")]]
    { total_count := 1, results := [[("active_substance", "semaglutide")]],
      source := "EMA Medicines Database", source_url := smUrl,
      last_updated := "T" } rfl

/-- Claim C9: for the embedded handlers, the pre-limit filter chain is
commutative — applying the handler's individual filter predicates in any
order (any permutation of the chain, omitted filters acting as constant
no-op predicates) produces the same working set as the handler's fixed
order. -/
theorem filter_chain_commutative :
    (∀ (p : SearchMedicinesParams) (qs : List (Record → Bool))
      (coll : List Record), (smFilterChain p).Perm qs →
      applyPreds qs coll = smApplyFilters p coll) ∧
    (∀ (p : ReferralsParams) (qs : List (Record → Bool))
      (coll : List Record), (refFilterChain p).Perm qs →
      applyPreds qs coll = refApplyFilters p coll) := by
  constructor
  · intro p qs coll h
    rw [smApplyFilters_eq]
    exact applyPreds_perm h.symm coll
  · intro p qs coll h
    rw [refApplyFilters_eq]
    exact applyPreds_perm h.symm coll

/-- Claim C9, witness: the reversed chain of a concrete `searchMedicines`
bag applied to a concrete collection agrees with the handler's fixed
order. -/
theorem filter_chain_commutative_witness :
    applyPreds
      (smFilterChain { active_substance := some "a", status := some "Authorised" }).reverse
      [[("active_substance", "abc"), ("medicine_status", "Authorised")],
       [("active_substance", "xyz"), ("medicine_status", "Authorised")]] =
    smApplyFilters { active_substance := some "a", status := some "Authorised" }
      [[("active_substance", "abc"), ("medicine_status", "Authorised")],
       [("active_substance", "xyz"), ("medicine_status", "Authorised")]] :=
  filter_chain_commutative.1
    { active_substance := some "a", status := some "Authorised" } _ _
    (List.reverse_perm _).symm

/-- An optional text filter step produces the same output for two search
terms with equal lowerings (the truthiness guard agrees because lowering
preserves emptiness) whenever the filter body does. -/
theorem applyOptTextFilter_congr {t t' : String} (h : lowerStr t = lowerStr t')
    {f : String → Record → Bool} (hf : f t = f t') (l : List Record) :
    applyOptTextFilter (some t) f l = applyOptTextFilter (some t') f l := by
  by_cases ht : t = ""
  · have ht2 : t' = "" := by
      refine (lowerStr_eq_empty_iff t').mp ?_
      rw [← h, ht]
      rfl
    simp [applyOptTextFilter, ht, ht2]
  · have ht2 : t' ≠ "" := by
      intro he
      exact ht ((lowerStr_eq_empty_iff t).mp (by rw [h, he]; rfl))
    simp [applyOptTextFilter, ht, ht2, hf]

/-- Claim C5: every text (substring) filter of the embedded handlers is
case-insensitive — running the handler with a search term and with any
case variant of it (equal lowerings) yields identical results; for the
single-medicine lookup the found medicine is identical (its not-found
message interpolates the raw query and is not part of the results). -/
theorem text_filters_case_insensitive :
    (∀ (t t' now : String) (coll : List Record), lowerStr t = lowerStr t' →
      (searchMedicines { active_substance := some t } now).run coll =
      (searchMedicines { active_substance := some t' } now).run coll) ∧
    (∀ (t t' now : String) (coll : List Record), lowerStr t = lowerStr t' →
      (searchMedicines { therapeutic_area := some t } now).run coll =
      (searchMedicines { therapeutic_area := some t' } now).run coll) ∧
    (∀ (t t' now : String) (coll : List Record), lowerStr t = lowerStr t' →
      (getPostAuthProcedures { medicine_name := some t } now).run coll =
      (getPostAuthProcedures { medicine_name := some t' } now).run coll) ∧
    (∀ (t t' : String) (cy : Int) (now : String) (coll : List Record),
      lowerStr t = lowerStr t' →
      (getReferrals { active_substance := some t } cy now).run coll =
      (getReferrals { active_substance := some t' } cy now).run coll) ∧
    (∀ (t t' : String) (cy : Int) (now : String) (coll : List Record),
      lowerStr t = lowerStr t' →
      (getReferrals { status := some t } cy now).run coll =
      (getReferrals { status := some t' } cy now).run coll) ∧
    (∀ (t t' now : String) (coll : List Record), lowerStr t = lowerStr t' →
      ((getMedicineByName (some t) now).run coll).map Lookup.medicine =
      ((getMedicineByName (some t') now).run coll).map Lookup.medicine) := by
  refine ⟨?_, ?_, ?_, ?_, ?_, ?_⟩
  · intro t t' now coll h
    have hf : smActivePred t = smActivePred t' := by
      funext m
      simp only [smActivePred]
      rw [h]
    have hfil : smApplyFilters { active_substance := some t } coll =
        smApplyFilters { active_substance := some t' } coll := by
      simp only [smApplyFilters]
      rw [applyOptTextFilter_congr h hf]
    simp [searchMedicines, HandlerResult.run, limitInvalid, enumInvalid, hfil]
  · intro t t' now coll h
    have hf : smTherapeuticPred t = smTherapeuticPred t' := by
      funext m
      simp only [smTherapeuticPred]
      rw [h]
    have hfil : smApplyFilters { therapeutic_area := some t } coll =
        smApplyFilters { therapeutic_area := some t' } coll := by
      simp only [smApplyFilters]
      rw [applyOptTextFilter_congr h hf]
    simp [searchMedicines, HandlerResult.run, limitInvalid, enumInvalid, hfil]
  · intro t t' now coll h
    have hf : paMedNamePred t = paMedNamePred t' := by
      funext m
      simp only [paMedNamePred]
      rw [h]
    have hfil : applyOptTextFilter (some t) paMedNamePred coll =
        applyOptTextFilter (some t') paMedNamePred coll :=
      applyOptTextFilter_congr h hf coll
    simp [getPostAuthProcedures, HandlerResult.run, limitInvalid, hfil]
  · intro t t' cy now coll h
    have hf : refActivePred t = refActivePred t' := by
      funext m
      simp only [refActivePred]
      rw [h]
    have hfil : refApplyFilters { active_substance := some t } coll =
        refApplyFilters { active_substance := some t' } coll := by
      simp only [refApplyFilters]
      rw [applyOptTextFilter_congr h hf]
    simp [getReferrals, HandlerResult.run, limitInvalid, yearInvalid, hfil]
  · intro t t' cy now coll h
    have hf : refStatusPred t = refStatusPred t' := by
      funext m
      simp only [refStatusPred]
      rw [h]
    have hfil : refApplyFilters { status := some t } coll =
        refApplyFilters { status := some t' } coll := by
      simp only [refApplyFilters]
      rw [applyOptTextFilter_congr h hf]
    simp [getReferrals, HandlerResult.run, limitInvalid, yearInvalid, hfil]
  · intro t t' now coll h
    have htrim : lowerStr (jsTrim t) = lowerStr (jsTrim t') := by
      rw [lowerStr_jsTrim, lowerStr_jsTrim, h]
    by_cases ht : jsTrim t = ""
    · have ht2 : jsTrim t' = "" := by
        refine (lowerStr_eq_empty_iff _).mp ?_
        rw [← htrim, ht]
        rfl
      simp [getMedicineByName, ht, ht2, HandlerResult.run]
    · have ht2 : jsTrim t' ≠ "" := by
        intro he
        exact ht ((lowerStr_eq_empty_iff _).mp (by rw [htrim, he]; rfl))
      simp only [getMedicineByName, ht, ht2, if_neg, HandlerResult.run,
        htrim, Except.map]
      cases hfind : coll.find? (medNameMatches (lowerStr (jsTrim t'))) <;>
        simp [hfind, Lookup.medicine]

/-- Claim C5, witness: the `"SEMAGLUTIDE"` and `"semaglutide"` runs agree
on a concrete collection. -/
theorem text_filters_case_insensitive_witness :
    (searchMedicines { active_substance := some "SEMAGLUTIDE" } "T").run
      [[("active_substance", "semaglutide")], [("active_substance", "metformin")]] =
    (searchMedicines { active_substance := some "semaglutide" } "T").run
      [[("active_substance", "semaglutide")], [("active_substance", "metformin")]] :=
  text_filters_case_insensitive.1 "SEMAGLUTIDE" "semaglutide" "T"
    [[("active_substance", "semaglutide")], [("active_substance", "metformin")]]
    (by decide)

/-- Claim C6: `getMedicineByName` matches by case-insensitive substring on
the `name_of_medicine` field — any case variant of `"Ozemp"` finds a
collection containing a record named `"Ozempic"` — and when no record
matches, it returns a successful (non-throwing) `found: false` value whose
message contains `"not found"`. -/
theorem getMedicineByName_lookup_semantics :
    (∀ (t now : String) (coll : List Record) (r : Record),
      lowerStr t = lowerStr "Ozemp" → r ∈ coll →
      r.get "name_of_medicine" = some "Ozempic" →
      ((getMedicineByName (some t) now).run coll).map Lookup.isFound =
        .ok true) ∧
    (∀ (s now : String) (coll : List Record),
      jsTrim s ≠ "" →
      (∀ r ∈ coll, medNameMatches (lowerStr (jsTrim s)) r = false) →
      (getMedicineByName (some s) now).run coll =
        .ok (.notFound ("Medicine \"" ++ s ++ "\" not found in EMA database")
          "EMA Medicines Database" smUrl) ∧
      includesStr ("Medicine \"" ++ s ++ "\" not found in EMA database")
        "not found" = true) := by
  constructor
  · intro t now coll r h hr hname
    have hlow : lowerStr t = "ozemp" := by rw [h]; rfl
    have hnws : ∀ c ∈ t.data, c.isWhitespace = false := by
      intro c hc
      have hm : Char.toLower c ∈ (lowerStr t).data :=
        List.mem_map_of_mem Char.toLower hc
      rw [hlow] at hm
      have hm2 : Char.toLower c ∈ ['o', 'z', 'e', 'm', 'p'] := hm
      rw [← isWhitespace_toLower c]
      simp only [List.mem_cons, List.not_mem_nil, or_false] at hm2
      rcases hm2 with h1 | h1 | h1 | h1 | h1 <;> rw [h1] <;> decide
    have htrim : jsTrim t = t :=
      String.eq_of_data_eq (trimChars_eq_self_of_no_ws hnws)
    have hne : jsTrim t ≠ "" := by
      rw [htrim]
      intro he
      rw [he] at hlow
      exact absurd hlow (by decide)
    have hmatch : medNameMatches (lowerStr (jsTrim t)) r = true := by
      rw [htrim, hlow]
      simp only [medNameMatches, fieldContainsLower, hname]
      decide
    obtain ⟨m, hm⟩ :
        ∃ m, coll.find? (medNameMatches (lowerStr (jsTrim t))) = some m := by
      have hsome := List.find?_isSome.mpr ⟨r, hr, hmatch⟩
      cases hf : coll.find? (medNameMatches (lowerStr (jsTrim t))) with
      | none => rw [hf] at hsome; simp at hsome
      | some m => exact ⟨m, rfl⟩
    simp [getMedicineByName, hne, HandlerResult.run, hm, Lookup.isFound,
      Except.map]
  · intro s now coll hne hnomatch
    have hfind : coll.find? (medNameMatches (lowerStr (jsTrim s))) = none :=
      List.find?_eq_none.mpr (fun r hr => by simp [hnomatch r hr])
    refine ⟨?_, ?_⟩
    · simp [getMedicineByName, hne, HandlerResult.run, hfind]
    · show infixCheck ("not found").data
        (("Medicine \"" ++ s ++ "\" not found in EMA database").data) = true
      rw [show ("Medicine \"" ++ s ++ "\" not found in EMA database").data =
        ("Medicine \"" ++ s).data ++ ("\" not found in EMA database").data
        from rfl]
      exact infixCheck_append_left (by decide) _

/-- Claim C6, witness: a concrete uppercase partial query finds Ozempic,
and a concrete absent query yields the soft not-found value. -/
theorem getMedicineByName_lookup_semantics_witness :
    ((getMedicineByName (some "OZEMP") "T").run
      [[("name_of_medicine", "Ozempic")]]).map Lookup.isFound = .ok true ∧
    (getMedicineByName (some "zzz") "T").run [] =
      .ok (.notFound "Medicine \"zzz\" not found in EMA database"
        "EMA Medicines Database" smUrl) ∧
    includesStr "Medicine \"zzz\" not found in EMA database" "not found" =
      true :=
  ⟨getMedicineByName_lookup_semantics.1 "OZEMP" "T"
      [[("name_of_medicine", "Ozempic")]] [("name_of_medicine", "Ozempic")]
      (by decide) (by simp) rfl,
    getMedicineByName_lookup_semantics.2 "zzz" "T" [] (by decide)
      (by intro r hr; exact absurd hr (List.not_mem_nil r))⟩
